import Mathlib

/-!
# Verification of the NoMoreOnCall remediation engine (`src/code_fixer.py`)

This file shallowly embeds the remediation engine of the repository:
the error-taxonomy-to-fix-rule dispatcher (`CodeFixer._generate_fix` and
the per-category rule functions), the changeset builder
(`CodeFixer.suggest_code_changes`), the working-tree applier and
version-control steps (`CodeFixer.apply_code_changes`), and the publish
step (`CodeFixer.create_pull_request`).

Python strings are modeled as `List Char`.  Python operations used by the
source (`in`, `str.replace`, `str.split`, `re.sub` with the concrete
patterns appearing in the source) are given executable Lean counterparts.
A Python function that can raise is embedded with an `Option`/`Except`
result, where `none`/`.error` marks the raising execution path.
-/

namespace NoMoreOnCall

/-- Python strings, modeled as lists of characters. -/
abbrev PyStr := List Char

/-- Turn a Lean string literal into the `PyStr` model. -/
def str (s : String) : PyStr := s.toList

/-- Prefix test: `startsWithL needle hay` holds when `needle` is a prefix of `hay`
(Python `hay.startswith(needle)`). -/
def startsWithL : PyStr → PyStr → Bool
  | [], _ => true
  | _ :: _, [] => false
  | n :: ns, h :: hs => n = h && startsWithL ns hs

/-- Substring test `hasSub needle hay`: Python `needle in hay`. -/
def hasSub (needle : PyStr) : PyStr → Bool
  | [] => needle.isEmpty
  | h :: hs => startsWithL needle (h :: hs) || hasSub needle hs

/-- Python `hay.replace(needle, repl)`: replace every non-overlapping
occurrence, scanning left to right.  (All call sites in the source use a
nonempty `needle`; an empty `needle` is treated as the identity.) -/
def replaceAll (needle repl : PyStr) : PyStr → PyStr
  | [] => []
  | c :: rest =>
    if startsWithL needle (c :: rest) && !needle.isEmpty then
      repl ++ replaceAll needle repl (rest.drop (needle.length - 1))
    else
      c :: replaceAll needle repl rest
termination_by l => l.length
decreasing_by
  · simp only [List.length_drop, List.length_cons]; omega
  · simp only [List.length_cons]; omega

/-- Python `hay.split(sep)` for a nonempty separator.  (All call sites in
the source use a nonempty separator; an empty one yields a single piece.) -/
def splitOnSub (sep : PyStr) : PyStr → List PyStr
  | [] => [[]]
  | c :: rest =>
    if startsWithL sep (c :: rest) && !sep.isEmpty then
      [] :: splitOnSub sep (rest.drop (sep.length - 1))
    else
      match splitOnSub sep rest with
      | [] => [[c]]
      | p :: ps => (c :: p) :: ps
termination_by l => l.length
decreasing_by
  · simp only [List.length_drop, List.length_cons]; omega
  · simp only [List.length_cons]; omega

/-- Scan for the shortest run of non-newline characters terminated by a
closing parenthesis: the semantics of the lazy group in the regular
expressions of the form `PAT\((.*?)\)` used by the source.  Returns the
captured characters and the remainder after the closing parenthesis. -/
def capTo : PyStr → Option (PyStr × PyStr)
  | [] => none
  | c :: rest =>
    if c = ')' then some ([], rest)
    else if c = '\n' then none
    else (capTo rest).map (fun pr => (c :: pr.1, pr.2))

theorem capTo_length_lt : ∀ l cap r, capTo l = some (cap, r) → r.length < l.length := by
  intro l
  induction l with
  | nil => intro cap r h; simp [capTo] at h
  | cons c rest ih =>
    intro cap r h
    simp only [capTo] at h
    split at h
    · injection h with h'
      injection h' with ha hb
      subst hb
      simp only [List.length_cons]; omega
    · split at h
      · exact absurd h (by simp)
      · rcases Option.map_eq_some'.mp h with ⟨⟨cap0, r0⟩, hrec, heq⟩
        injection heq with h1 h2
        subst h2
        have := ih cap0 r0 hrec
        simp only [List.length_cons]; omega

/-- Substitution `re.sub(callPat ++ "(.*?)\)", pre ++ group ++ post, s)` for the concrete
call-wrapping patterns of the source: every leftmost occurrence of
`callPat` followed (on the same line) by a closing parenthesis is rewritten
to `pre ++ captured ++ post`, scanning resuming after the match. -/
def subLazy (callPat pre post : PyStr) : PyStr → PyStr
  | [] => []
  | c :: s =>
    if startsWithL callPat (c :: s) then
      match h : capTo ((c :: s).drop callPat.length) with
      | some (cap, r) => pre ++ cap ++ post ++ subLazy callPat pre post r
      | none => c :: subLazy callPat pre post s
    else
      c :: subLazy callPat pre post s
termination_by l => l.length
decreasing_by
  · have h1 := capTo_length_lt _ _ _ h
    simp only [List.length_drop, List.length_cons] at *
    omega
  · simp only [List.length_cons]; omega
  · simp only [List.length_cons]; omega

/-- Decimal value of a digit string (Python `int` on a digit-only string). -/
def digitsVal (ds : PyStr) : Nat :=
  ds.foldl (fun a c => 10 * a + (c.toNat - '0'.toNat)) 0

theorem dropWhile_len_le (p : Char → Bool) (l : PyStr) :
    (l.dropWhile p).length ≤ l.length := by
  induction l with
  | nil => simp [List.dropWhile]
  | cons c rest ih =>
    simp only [List.dropWhile]
    split
    · simp only [List.length_cons]; omega
    · simp only [List.length_cons]; omega

theorem dropWhile_drop_len_lt (p : Char → Bool) (n : Nat) (hn : 0 < n)
    (c : Char) (s : List Char) :
    (((c :: s).drop n).dropWhile p).length < (c :: s).length := by
  have h1 := dropWhile_len_le p ((c :: s).drop n)
  simp only [List.length_drop, List.length_cons] at *
  omega

/-- The literal pattern `timeout=` of the timeout rule. -/
def tPat : PyStr := str "timeout="

/-- Does the string begin with `timeout=` immediately followed by a digit,
i.e. does the regular expression `timeout=(\d+)` match at position 0? -/
def startsTimeoutNum (l : PyStr) : Bool :=
  startsWithL tPat l &&
    (match (l.drop tPat.length).head? with
     | some d => d.isDigit
     | none => false)

/-- Substitution `re.sub(r'timeout=(\d+)', lambda m: f'timeout={2 * int(m.group(1))}', s)`:
every leftmost occurrence of `timeout=` followed by a maximal nonempty digit
run `N` is rewritten to `timeout=` followed by the decimal digits of `2 * N`,
scanning resuming after the match. -/
def subTimeout : PyStr → PyStr
  | [] => []
  | c :: s =>
    if startsTimeoutNum (c :: s) then
      tPat ++
        Nat.toDigits 10
          (2 * digitsVal (((c :: s).drop tPat.length).takeWhile Char.isDigit)) ++
        subTimeout (((c :: s).drop tPat.length).dropWhile Char.isDigit)
    else
      c :: subTimeout s
termination_by l => l.length
decreasing_by
  · exact dropWhile_drop_len_lt _ _ (by decide) _ _
  · simp only [List.length_cons]; omega

/-- The `context` mapping handed to every rule (`context_lines` in the issue
file): line number to source text.  The Python dict keys are decimal string
renderings of line numbers; since that rendering is injective the keys are
modeled directly as integers. -/
abbrev Ctx := List (Int × PyStr)

/-- Embedding of `CodeFixer._fix_database_error`. -/
def fix_database_error (code : PyStr) (context : Ctx) : Option PyStr :=
  if hasSub (str "timeout=5") code then
    some (replaceAll (str "timeout=5") (str "timeout=30") code)
  else if hasSub (str "db.query(") code then
    some (subLazy (str "db.query(")
      (str "db.query(\"SELECT * FROM users WHERE id = ?\", [") (str "])") code)
  else if hasSub (str "connect()") code then
    some (replaceAll (str "connect()") (str "connect(pool_size=5, max_overflow=10)") code)
  else some code

/-- Embedding of `CodeFixer._fix_auth_error`. -/
def fix_auth_error (code : PyStr) (context : Ctx) : Option PyStr :=
  if hasSub (str "len(token) < 32") code then
    some (replaceAll (str "len(token) < 32") (str "not is_valid_token_format(token)") code)
  else if hasSub (str "Authorization") code then
    some (replaceAll (str "token = request.headers.get('Authorization')")
      (str "token = request.headers.get('Authorization', '').replace('Bearer ', '')") code)
  else some code

/-- Embedding of `CodeFixer._fix_connection_error`. -/
def fix_connection_error (code : PyStr) (context : Ctx) : Option PyStr :=
  if hasSub (str "connect()") code then
    some (str "@retry(max_attempts=3, delay=1)\n" ++ code)
  else some code

/-- Embedding of `CodeFixer._fix_timeout_error`. -/
def fix_timeout_error (code : PyStr) (context : Ctx) : Option PyStr :=
  if hasSub tPat code then
    some (subTimeout code)
  else some code

/-- Embedding of `CodeFixer._fix_validation_error`. -/
def fix_validation_error (code : PyStr) (context : Ctx) : Option PyStr :=
  if hasSub (str "if not") code then
    some (replaceAll (str "if not") (str "if not is_valid_input(") code)
  else some code

/-- Embedding of `CodeFixer._fix_resource_not_found`. -/
def fix_resource_not_found (code : PyStr) (context : Ctx) : Option PyStr :=
  if hasSub (str "get(") code then
    some (subLazy (str ".get(") (str ".get(") (str ", None)") code)
  else some code

/-- Embedding of `CodeFixer._fix_permission_error`. -/
def fix_permission_error (code : PyStr) (context : Ctx) : Option PyStr :=
  if hasSub (str "check_permission") code then
    some (replaceAll (str "check_permission") (str "check_permission_with_roles") code)
  else some code

/-- Embedding of `CodeFixer._fix_rate_limit_error`. -/
def fix_rate_limit_error (code : PyStr) (context : Ctx) : Option PyStr :=
  if hasSub (str "request") code then
    some (str "@rate_limit(max_requests=100, window=60)\n" ++ code)
  else some code

/-- Embedding of `CodeFixer._fix_memory_error`. -/
def fix_memory_error (code : PyStr) (context : Ctx) : Option PyStr :=
  if hasSub (str "list(") code then
    some (replaceAll (str "list(") (str "generator(") code)
  else if hasSub (str "dict(") code then
    some (replaceAll (str "dict(") (str "defaultdict(") code)
  else if hasSub (str "for") code && hasSub (str "in") code then
    some (replaceAll (str "for") (str "for _ in itertools.islice(") code)
  else some code

/-- Embedding of `CodeFixer._fix_concurrency_error`. -/
def fix_concurrency_error (code : PyStr) (context : Ctx) : Option PyStr :=
  if hasSub (str "global") code then
    some (str "@thread_safe\n" ++ code)
  else if hasSub (str "shared_resource") code then
    some (str "with lock:\n    " ++ code)
  else some code

/-- Embedding of `CodeFixer._fix_configuration_error`. -/
def fix_configuration_error (code : PyStr) (context : Ctx) : Option PyStr :=
  if hasSub (str "config.get(") code then
    some (subLazy (str "config.get(") (str "config.get(") (str ", default_value)") code)
  else if hasSub (str "os.environ.get(") code then
    some (subLazy (str "os.environ.get(") (str "get_validated_env(") (str ")") code)
  else some code

/-- Embedding of `CodeFixer._fix_security_error`. -/
def fix_security_error (code : PyStr) (context : Ctx) : Option PyStr :=
  if hasSub (str "password") code then
    some (replaceAll (str "password") (str "hashed_password") code)
  else if hasSub (str "token") code then
    some (replaceAll (str "token") (str "secure_token") code)
  else some code

/-- Embedding of `CodeFixer._fix_network_error`.  The `socket` branch of the
source interpolates `{e}` inside an f-string, and no variable `e` is in scope
at that point, so reaching that branch raises `NameError`; the raising path
is embedded as `none`. -/
def fix_network_error (code : PyStr) (context : Ctx) : Option PyStr :=
  if hasSub (str "requests.get(") code then
    some (subLazy (str "requests.get(") (str "requests.get(") (str ", timeout=30, retries=3)") code)
  else if hasSub (str "socket") code then
    none
  else some code

/-- Embedding of `CodeFixer._fix_filesystem_error`.  The `os.path` branch of
the source guards on the substring `os.path` but then indexes
`code.split('os.path.')[1]` and `...split('(')[1]`; when either split yields
fewer than two pieces the subscript raises `IndexError`, embedded as `none`. -/
def fix_filesystem_error (code : PyStr) (context : Ctx) : Option PyStr :=
  if hasSub (str "open(") code then
    match (splitOnSub (str "open(") code).get? 1 with
    | none => none
    | some part1 =>
      match (splitOnSub (str ")") part1).get? 0 with
      | none => none
      | some inner =>
        some (str "with open(" ++ inner ++ str ", 'r') as f:\n    content = f.read()")
  else if hasSub (str "os.path") code then
    match (splitOnSub (str "os.path.") code).get? 1 with
    | none => none
    | some part1 =>
      match (splitOnSub (str "(") part1).get? 1 with
      | none => none
      | some part2 =>
        match (splitOnSub (str ")") part2).get? 0 with
        | none => none
        | some inner =>
          some (str "if os.path.exists(" ++ inner ++ str "):\n    " ++ code)
  else some code

/-- Embedding of `CodeFixer._fix_serialization_error`. -/
def fix_serialization_error (code : PyStr) (context : Ctx) : Option PyStr :=
  if hasSub (str "json.dumps(") code then
    some (replaceAll (str "json.dumps(") (str "json.dumps(, default=str)") code)
  else if hasSub (str "pickle.dumps(") code then
    some (replaceAll (str "pickle.dumps(") (str "secure_pickle.dumps(") code)
  else some code

/-- Embedding of `CodeFixer._fix_generic_error`. -/
def fix_generic_error (code : PyStr) (context : Ctx) : Option PyStr :=
  if hasSub (str "try:") code then
    some (replaceAll (str "except Exception as e:")
      (str "except Exception as e:\n    logger.error(f\"Error: {str(e)}\")\n    raise") code)
  else some code

/-- Embedding of `CodeFixer._generate_fix`: dispatch on the error type through
the fixed `fix_methods` table, defaulting to the generic rule. -/
def generate_fix (error_type : PyStr) (code : PyStr) (context : Ctx) : Option PyStr :=
  if error_type = str "DatabaseError" then fix_database_error code context
  else if error_type = str "AuthenticationError" then fix_auth_error code context
  else if error_type = str "ConnectionError" then fix_connection_error code context
  else if error_type = str "TimeoutError" then fix_timeout_error code context
  else if error_type = str "ValidationError" then fix_validation_error code context
  else if error_type = str "ResourceNotFoundError" then fix_resource_not_found code context
  else if error_type = str "PermissionError" then fix_permission_error code context
  else if error_type = str "RateLimitError" then fix_rate_limit_error code context
  else if error_type = str "MemoryError" then fix_memory_error code context
  else if error_type = str "ConcurrencyError" then fix_concurrency_error code context
  else if error_type = str "ConfigurationError" then fix_configuration_error code context
  else if error_type = str "SecurityError" then fix_security_error code context
  else if error_type = str "NetworkError" then fix_network_error code context
  else if error_type = str "FileSystemError" then fix_filesystem_error code context
  else if error_type = str "SerializationError" then fix_serialization_error code context
  else fix_generic_error code context

/-- The trigger patterns registered for a category's rule: `matchesSome` holds
when the input text matches at least one of them.  For every category this
lists exactly the guard conditions of the dispatched rule function, and for an
unregistered category the guard of the generic fallback. -/
def matchesSome (error_type : PyStr) (code : PyStr) : Bool :=
  if error_type = str "DatabaseError" then
    hasSub (str "timeout=5") code || hasSub (str "db.query(") code ||
      hasSub (str "connect()") code
  else if error_type = str "AuthenticationError" then
    hasSub (str "len(token) < 32") code || hasSub (str "Authorization") code
  else if error_type = str "ConnectionError" then
    hasSub (str "connect()") code
  else if error_type = str "TimeoutError" then
    hasSub tPat code
  else if error_type = str "ValidationError" then
    hasSub (str "if not") code
  else if error_type = str "ResourceNotFoundError" then
    hasSub (str "get(") code
  else if error_type = str "PermissionError" then
    hasSub (str "check_permission") code
  else if error_type = str "RateLimitError" then
    hasSub (str "request") code
  else if error_type = str "MemoryError" then
    hasSub (str "list(") code || hasSub (str "dict(") code ||
      (hasSub (str "for") code && hasSub (str "in") code)
  else if error_type = str "ConcurrencyError" then
    hasSub (str "global") code || hasSub (str "shared_resource") code
  else if error_type = str "ConfigurationError" then
    hasSub (str "config.get(") code || hasSub (str "os.environ.get(") code
  else if error_type = str "SecurityError" then
    hasSub (str "password") code || hasSub (str "token") code
  else if error_type = str "NetworkError" then
    hasSub (str "requests.get(") code || hasSub (str "socket") code
  else if error_type = str "FileSystemError" then
    hasSub (str "open(") code || hasSub (str "os.path") code
  else if error_type = str "SerializationError" then
    hasSub (str "json.dumps(") code || hasSub (str "pickle.dumps(") code
  else
    hasSub (str "try:") code

/-- One entry of `blame_info`: the `{author, commit}` dictionary of a line,
either key possibly absent. -/
structure Blame where
  author : Option PyStr
  commit : Option PyStr
deriving DecidableEq

/-- One entry of the `code_analysis` array of the issue file. -/
structure FileAnalysis where
  file_path : PyStr
  error_lines : List Int
  context_lines : Ctx
  blame_info : List (Int × Blame)
deriving DecidableEq

/-- The parsed issue file (`self.issue_data`), restricted to the fields the
code fixer consumes: `error_id`, `error_details.type`, `code_analysis` and
`llm_analysis.suggested_fixes`.  As with `Ctx`, dictionaries keyed by
`str(line_number)` are modeled with integer keys. -/
structure IssueData where
  error_id : PyStr
  error_type : PyStr
  code_analysis : List FileAnalysis
  suggested_fixes : List PyStr
deriving DecidableEq

/-- The `CodeChange` dataclass of the source. -/
structure CodeChange where
  file_path : PyStr
  original_code : PyStr
  new_code : PyStr
  line_number : Int
  description : PyStr
  author : PyStr
  commit_hash : PyStr
deriving DecidableEq

/-- Python `dict.get(k)`: the first binding of the key, if any. -/
def lookupA {α : Type} (m : List (Int × α)) (k : Int) : Option α :=
  match m with
  | [] => none
  | (k0, v) :: rest => if k0 = k then some v else lookupA rest k

/-- The `'Unknown'` default for missing blame data. -/
def unknownStr : PyStr := str "Unknown"

/-- The body of the inner loop of `CodeFixer.suggest_code_changes`: build the
suggestion for one line of one analyzed file.  `none` marks a raising
execution (a rule function raising, or `suggested_fixes[0]` on an empty
list). -/
def changeFor (d : IssueData) (fa : FileAnalysis) (line_number : Int) :
    Option CodeChange :=
  match generate_fix d.error_type ((lookupA fa.context_lines line_number).getD [])
      fa.context_lines with
  | none => none
  | some new_code =>
    match d.suggested_fixes.head? with
    | none => none
    | some dsc =>
      some { file_path := fa.file_path
             original_code := (lookupA fa.context_lines line_number).getD []
             new_code := new_code
             line_number := line_number
             description := dsc
             author := ((lookupA fa.blame_info line_number).bind Blame.author).getD unknownStr
             commit_hash := ((lookupA fa.blame_info line_number).bind Blame.commit).getD unknownStr }

/-- The inner loop of `CodeFixer.suggest_code_changes` over `error_lines`. -/
def changesForLines (d : IssueData) (fa : FileAnalysis) :
    List Int → Option (List CodeChange)
  | [] => some []
  | ln :: rest =>
    match changeFor d fa ln with
    | none => none
    | some c =>
      match changesForLines d fa rest with
      | none => none
      | some cs => some (c :: cs)

/-- The outer loop of `CodeFixer.suggest_code_changes` over `code_analysis`. -/
def changesForFiles (d : IssueData) : List FileAnalysis → Option (List CodeChange)
  | [] => some []
  | fa :: rest =>
    match changesForLines d fa fa.error_lines with
    | none => none
    | some cs =>
      match changesForFiles d rest with
      | none => none
      | some cs2 => some (cs ++ cs2)

/-- Embedding of `CodeFixer.suggest_code_changes`. -/
def suggest_code_changes (d : IssueData) : Option (List CodeChange) :=
  changesForFiles d d.code_analysis

/-- The ordered `(file_path, line_number)` entries described by the report:
one per error line of each analyzed file, in input order. -/
def codeLocations (d : IssueData) : List (PyStr × Int) :=
  d.code_analysis.flatMap (fun fa => fa.error_lines.map (fun ln => (fa.file_path, ln)))

/-- Python `readlines`: split after every newline, keeping the terminators; a
final unterminated piece is kept as a last line. -/
def splitAfterNL : List Char → List (List Char)
  | [] => []
  | c :: rest =>
    if c = '\n' then [ '\n' ] :: splitAfterNL rest
    else
      match splitAfterNL rest with
      | [] => [[c]]
      | l :: ls => (c :: l) :: ls

/-- The per-change line replacement of `CodeFixer.apply_code_changes`: set the
element at the 1-based `line_number` to `new_code ++ "\n"` when the index is
in range, and leave the list unchanged otherwise (the source guards with
`0 <= idx < len(lines)` and never raises here). -/
def replaceLine (lines : List PyStr) (line_number : Int) (new_code : PyStr) :
    List PyStr :=
  if 0 ≤ line_number - 1 ∧ line_number - 1 < (lines.length : Int) then
    lines.set (line_number - 1).toNat (new_code ++ [ '\n' ])
  else lines

/-- One iteration of the apply loop on one file's content: `readlines`,
replace the line when in range, `writelines` the result back. -/
def applyToContent (line_number : Int) (new_code : PyStr) (content : List Char) :
    List Char :=
  (replaceLine (splitAfterNL content) line_number new_code).flatten

/-- The state mutated by `apply_code_changes`: the files of the checkout, the
branches, the checked-out branch, the staged paths, and the commit messages
(newest first).  The branch and commit components model the git repository as
observed through the GitPython calls of the source. -/
structure RepoState where
  files : List (PyStr × List Char)
  branches : List PyStr
  current : PyStr
  staged : List PyStr
  commits : List PyStr
deriving DecidableEq

/-- The raising execution paths of the embedded functions. -/
inductive PyErr
  | fileNotFound
  | indexError
  | commitError
  | networkError
deriving DecidableEq

/-- Read a file of the checkout (Python `open(path, 'r')`, `none` when the
path is absent). -/
def fsRead (files : List (PyStr × List Char)) (p : PyStr) : Option (List Char) :=
  match files with
  | [] => none
  | (q, c) :: rest => if q = p then some c else fsRead rest p

/-- Write a file of the checkout (Python `open(path, 'w')`). -/
def fsWrite (files : List (PyStr × List Char)) (p : PyStr) (c : List Char) :
    List (PyStr × List Char) :=
  match files with
  | [] => [(p, c)]
  | (q, c0) :: rest => if q = p then (q, c) :: rest else (q, c0) :: fsWrite rest p c

/-- The apply loop of `CodeFixer.apply_code_changes`: for each change, open
the file (`FileNotFoundError` when absent), replace the line when in range,
write the file back, and stage the path.  An error carries the state mutated
so far (no rollback). -/
def applyLoop : List CodeChange → RepoState → Except (PyErr × RepoState) RepoState
  | [], st => .ok st
  | ch :: rest, st =>
    match fsRead st.files ch.file_path with
    | none => .error (.fileNotFound, st)
    | some content =>
      applyLoop rest
        { st with
          files := fsWrite st.files ch.file_path
            (applyToContent ch.line_number ch.new_code content)
          staged := ch.file_path :: st.staged }

/-- Embedding of `CodeFixer.apply_code_changes`: select or create the branch,
run the apply loop, build the commit message from `changes[0]` (an
`IndexError` on an empty changeset), then commit.  The commit call itself is
the external `git commit`, modeled as failing when nothing is staged (spec
section 4.4). -/
def apply_code_changes (d : IssueData) (changes : List CodeChange)
    (branch_name : Option PyStr) (st : RepoState) :
    Except (PyErr × RepoState) (RepoState × PyStr) :=
  let bn := branch_name.getD (str "fix/" ++ d.error_id)
  let st1 :=
    if bn ∈ st.branches then { st with current := bn }
    else { st with branches := bn :: st.branches, current := bn }
  match applyLoop changes st1 with
  | .error e => .error e
  | .ok st2 =>
    match changes.head? with
    | none => .error (.indexError, st2)
    | some ch0 =>
      if st2.staged = [] then .error (.commitError, st2)
      else
        .ok ({ st2 with
                commits := (str "fix(" ++ d.error_id ++ str "): " ++ ch0.description)
                  :: st2.commits
                staged := [] }, bn)

/-- The response of the `requests.post` call in `create_pull_request`. -/
structure HttpResp where
  status_code : Int
  html_url : Option PyStr
deriving DecidableEq

/-- Python truthiness of an environment lookup: `not x` holds when the
variable is unset or set to the empty string. -/
def truthy : Option PyStr → Bool
  | none => false
  | some s => !s.isEmpty

/-- Embedding of `CodeFixer.create_pull_request`.  `github_token` and
`github_repo` are the `os.getenv` results; `resp` is the outcome of the
`requests.post` call (`none` when the call itself raises), consulted only
when both configuration values are truthy. -/
def create_pull_request (github_token github_repo : Option PyStr)
    (resp : Option HttpResp) : Except PyErr (Option PyStr) :=
  if !truthy github_token || !truthy github_repo then .ok none
  else
    match resp with
    | none => .error .networkError
    | some r => if r.status_code = 201 then .ok r.html_url else .ok none

/-- The tail of `CodeFixer.run` from the publish step on: the branch name and
patch path produced by the earlier stages are reported alongside the
(optional) pull-request URL. -/
def runPublishStage (branch_name patch_path : PyStr)
    (github_token github_repo : Option PyStr) (resp : Option HttpResp) :
    Except PyErr (PyStr × PyStr × Option PyStr) :=
  match create_pull_request github_token github_repo resp with
  | .error e => .error e
  | .ok pr => .ok (branch_name, patch_path, pr)

/-! ## Basic facts about the line splitting -/

theorem flatten_splitAfterNL (s : List Char) : (splitAfterNL s).flatten = s := by
  induction s with
  | nil => rfl
  | cons c rest ih =>
    simp only [splitAfterNL]
    split
    · rename_i hc
      simp [List.flatten, ih, hc]
    · rename_i hc
      cases h : splitAfterNL rest with
      | nil =>
        have : rest = [] := by rw [← ih, h]; rfl
        simp [this, List.flatten]
      | cons l ls =>
        have : (l :: ls).flatten = rest := by rw [← ih, h]
        simp only [List.flatten_cons] at this ⊢
        simp [this]

theorem applyToContent_out_of_range (line_number : Int) (new_code : PyStr)
    (content : List Char)
    (h : ¬ (1 ≤ line_number ∧
      line_number ≤ ((splitAfterNL content).length : Int))) :
    applyToContent line_number new_code content = content := by
  unfold applyToContent replaceLine
  rw [if_neg (by omega)]
  exact flatten_splitAfterNL content

/-! ## C1 -/

/-- C1: the claim that every rule function is total and `generate_fix` never
raises fails on the code.  For the `NetworkError` category on the input
`socket`, the source interpolates `{e}` inside an f-string with no `e` in
scope, raising `NameError`; for the `FileSystemError` category on the input
`x = os.path`, the subscript `code.split('os.path.')[1]` raises `IndexError`
because the guard only checked for the substring `os.path`.  Both raising
paths evaluate to `none` in the embedding. -/
theorem generate_fix_can_raise :
    generate_fix (str "NetworkError") (str "socket") [] = none ∧
    generate_fix (str "FileSystemError") (str "x = os.path") [] = none := by
  constructor
  · decide
  · simp [generate_fix, fix_filesystem_error, str, hasSub, startsWithL, splitOnSub]

/-! ## C3 -/

/-- C3 (counterexample): a change whose line number (2) exceeds the line
count (1) of its existing target file does not make the apply loop fail; the
loop succeeds, leaving the file content unchanged and the path staged. -/
theorem applyLoop_out_of_range_succeeds :
    applyLoop
      [{ file_path := str "a.py", original_code := str "x = 1",
         new_code := str "x = 2", line_number := 2, description := str "d",
         author := str "u", commit_hash := str "c" }]
      { files := [(str "a.py", str "x = 1\n")], branches := [str "main"],
        current := str "main", staged := [], commits := [] }
    = .ok { files := [(str "a.py", str "x = 1\n")], branches := [str "main"],
            current := str "main", staged := [str "a.py"], commits := [] } := by
  simp [applyLoop, fsRead, fsWrite, applyToContent, replaceLine, splitAfterNL, str]

/-- C3 (amended): for a change whose target file is absent the apply loop
fails with a file-not-found error, but a change whose line number is out of
range for its existing target file is silently skipped — the file is
rewritten with unchanged content and staged, and the loop continues with no
line-out-of-range failure. -/
theorem applyLoop_error_handling (st : RepoState) (ch : CodeChange)
    (rest : List CodeChange) :
    (fsRead st.files ch.file_path = none →
      applyLoop (ch :: rest) st = .error (.fileNotFound, st)) ∧
    (∀ content, fsRead st.files ch.file_path = some content →
      ¬ (1 ≤ ch.line_number ∧
          ch.line_number ≤ ((splitAfterNL content).length : Int)) →
      applyLoop (ch :: rest) st =
        applyLoop rest
          { st with files := fsWrite st.files ch.file_path content,
                    staged := ch.file_path :: st.staged }) := by
  constructor
  · intro h
    conv_lhs => rw [applyLoop]
    rw [h]
  · intro content h hrange
    conv_lhs => rw [applyLoop]
    rw [h]
    dsimp only
    rw [applyToContent_out_of_range _ _ _ hrange]

theorem applyLoop_error_handling_witness :
    applyLoop
      [{ file_path := str "b.py", original_code := [], new_code := str "y",
         line_number := 1, description := str "d", author := str "u",
         commit_hash := str "c" }]
      { files := [], branches := [], current := str "main", staged := [],
        commits := [] }
      = .error (.fileNotFound,
        { files := [], branches := [], current := str "main", staged := [],
          commits := [] }) ∧
    applyLoop
      [{ file_path := str "a.py", original_code := str "x = 1",
         new_code := str "x = 2", line_number := 3, description := str "d",
         author := str "u", commit_hash := str "c" }]
      { files := [(str "a.py", str "x = 1\n")], branches := [],
        current := str "main", staged := [], commits := [] }
      = .ok { files := [(str "a.py", str "x = 1\n")], branches := [],
              current := str "main", staged := [str "a.py"], commits := [] } := by
  constructor
  · exact (applyLoop_error_handling _ _ _).1 (by decide)
  · rw [(applyLoop_error_handling _ _ _).2 (str "x = 1\n")
      (by simp [fsRead, str]) (by simp [splitAfterNL, str])]
    simp [applyLoop, fsWrite, str]

/-! ## C7 -/

/-- C7 (counterexample): invoked with an empty changeset on a repository with
one branch and no commits, `apply_code_changes` does not fail with a
commit (nothing-to-commit) error: it raises `IndexError` from
`changes[0].description` while the commit message is being built. -/
theorem apply_code_changes_empty_is_index_error :
    apply_code_changes
      { error_id := str "E1", error_type := str "TimeoutError",
        code_analysis := [], suggested_fixes := [] }
      [] none
      { files := [], branches := [str "main"], current := str "main",
        staged := [], commits := [] }
    = .error (.indexError,
      { files := [], branches := [str "fix/E1", str "main"],
        current := str "fix/E1", staged := [], commits := [] }) := by
  simp [apply_code_changes, applyLoop, str]

/-- C7 (amended): invoked with an empty changeset, `apply_code_changes`
always fails — with the `IndexError` of `changes[0]`, raised before any
commit is attempted — and the repository history is not advanced: the state
carried by the error has the original commit list. -/
theorem apply_code_changes_empty_changeset (d : IssueData)
    (branch_name : Option PyStr) (st : RepoState) :
    ∃ st', apply_code_changes d [] branch_name st = .error (.indexError, st') ∧
      st'.commits = st.commits := by
  unfold apply_code_changes
  simp only [applyLoop, List.head?]
  split
  · exact ⟨_, rfl, rfl⟩
  · exact ⟨_, rfl, rfl⟩

/-! ## C8 -/

/-- C8: applying a change with a valid (in-range) line number to the line
list of an existing file changes exactly the element at that (1-based)
position, which becomes the replacement text followed by the line
terminator; every other line of the file is unchanged. -/
theorem replaceLine_frame (lines : List PyStr) (line_number : Int)
    (new_code : PyStr) (h1 : 1 ≤ line_number)
    (h2 : line_number ≤ (lines.length : Int)) :
    (replaceLine lines line_number new_code)[(line_number - 1).toNat]?
        = some (new_code ++ [ '\n' ]) ∧
    ∀ j : Nat, (j : Int) ≠ line_number - 1 →
      (replaceLine lines line_number new_code)[j]? = lines[j]? := by
  unfold replaceLine
  rw [if_pos (by omega)]
  constructor
  · exact List.getElem?_set_self (by omega)
  · intro j hj
    exact List.getElem?_set_ne (by omega)

theorem replaceLine_frame_witness :
    (replaceLine [str "a\n", str "b\n"] 2 (str "c"))[1]? = some (str "c" ++ [ '\n' ]) ∧
    (replaceLine [str "a\n", str "b\n"] 2 (str "c"))[0]? = some (str "a\n") := by
  have h := replaceLine_frame [str "a\n", str "b\n"] 2 (str "c")
    (by decide) (by decide)
  refine ⟨?_, ?_⟩
  · have h1 := h.1
    norm_num at h1 ⊢
    exact h1
  · rw [h.2 0 (by decide)]
    decide

/-! ## C10 -/

/-- C10: for an in-range change, the line written at the target position is
the replacement text with exactly one newline character appended; it
therefore always ends in a newline, whether or not the original line was
terminated and whether or not the replacement is a multi-line block. -/
theorem replaceLine_appends_newline (lines : List PyStr) (line_number : Int)
    (new_code : PyStr) (h1 : 1 ≤ line_number)
    (h2 : line_number ≤ (lines.length : Int)) :
    (replaceLine lines line_number new_code)[(line_number - 1).toNat]?
        = some (new_code ++ [ '\n' ]) ∧
    (new_code ++ [ '\n' ]).getLast? = some '\n' := by
  unfold replaceLine
  rw [if_pos (by omega)]
  exact ⟨List.getElem?_set_self (by omega), List.getLast?_concat _⟩

theorem replaceLine_appends_newline_witness :
    (replaceLine [str "x"] 1 (str "a\nb"))[0]? = some (str "a\nb" ++ [ '\n' ]) ∧
    (str "a\nb" ++ [ '\n' ]).getLast? = some '\n' := by
  have h := replaceLine_appends_newline [str "x"] 1 (str "a\nb")
    (by decide) (by decide)
  refine ⟨?_, h.2⟩
  have h1 := h.1
  norm_num at h1 ⊢
  exact h1

/-! ## C9 -/

/-- C9: when the credential token or the repository identifier is unset or
empty, `create_pull_request` returns `None` without raising — regardless of
what the network would have answered — and the publish tail of `run` still
reports the branch name and the patch path produced by the earlier stages. -/
theorem create_pull_request_missing_config (branch_name patch_path : PyStr)
    (github_token github_repo : Option PyStr) (resp : Option HttpResp)
    (h : truthy github_token = false ∨ truthy github_repo = false) :
    create_pull_request github_token github_repo resp = .ok none ∧
    runPublishStage branch_name patch_path github_token github_repo resp
      = .ok (branch_name, patch_path, none) := by
  have hcond : (!truthy github_token || !truthy github_repo) = true := by
    rcases h with h | h <;> simp [h]
  constructor
  · unfold create_pull_request
    rw [if_pos hcond]
  · unfold runPublishStage create_pull_request
    rw [if_pos hcond]

theorem create_pull_request_missing_config_witness :
    create_pull_request none (some (str "owner/repo"))
        (some { status_code := 201, html_url := some (str "u") }) = .ok none ∧
    runPublishStage (str "fix/E1") (str "patch_fix_E1.patch") none
        (some (str "owner/repo"))
        (some { status_code := 201, html_url := some (str "u") })
      = .ok (str "fix/E1", str "patch_fix_E1.patch", none) :=
  create_pull_request_missing_config _ _ _ _ _ (Or.inl (by decide))

/-! ## C2: unmatched input is the identity, rule by rule -/

theorem fix_database_error_unmatched (code : PyStr) (context : Ctx)
    (h : (hasSub (str "timeout=5") code || hasSub (str "db.query(") code ||
      hasSub (str "connect()") code) = false) :
    fix_database_error code context = some code := by
  simp only [Bool.or_eq_false_iff] at h
  simp [fix_database_error, h.1.1, h.1.2, h.2]

theorem fix_auth_error_unmatched (code : PyStr) (context : Ctx)
    (h : (hasSub (str "len(token) < 32") code ||
      hasSub (str "Authorization") code) = false) :
    fix_auth_error code context = some code := by
  simp only [Bool.or_eq_false_iff] at h
  simp [fix_auth_error, h.1, h.2]

theorem fix_connection_error_unmatched (code : PyStr) (context : Ctx)
    (h : hasSub (str "connect()") code = false) :
    fix_connection_error code context = some code := by
  simp [fix_connection_error, h]

theorem fix_timeout_error_unmatched (code : PyStr) (context : Ctx)
    (h : hasSub tPat code = false) :
    fix_timeout_error code context = some code := by
  simp [fix_timeout_error, h]

theorem fix_validation_error_unmatched (code : PyStr) (context : Ctx)
    (h : hasSub (str "if not") code = false) :
    fix_validation_error code context = some code := by
  simp [fix_validation_error, h]

theorem fix_resource_not_found_unmatched (code : PyStr) (context : Ctx)
    (h : hasSub (str "get(") code = false) :
    fix_resource_not_found code context = some code := by
  simp [fix_resource_not_found, h]

theorem fix_permission_error_unmatched (code : PyStr) (context : Ctx)
    (h : hasSub (str "check_permission") code = false) :
    fix_permission_error code context = some code := by
  simp [fix_permission_error, h]

theorem fix_rate_limit_error_unmatched (code : PyStr) (context : Ctx)
    (h : hasSub (str "request") code = false) :
    fix_rate_limit_error code context = some code := by
  simp [fix_rate_limit_error, h]

theorem fix_memory_error_unmatched (code : PyStr) (context : Ctx)
    (h : (hasSub (str "list(") code || hasSub (str "dict(") code ||
      (hasSub (str "for") code && hasSub (str "in") code)) = false) :
    fix_memory_error code context = some code := by
  simp only [Bool.or_eq_false_iff] at h
  simp [fix_memory_error, h.1.1, h.1.2, h.2]

theorem fix_concurrency_error_unmatched (code : PyStr) (context : Ctx)
    (h : (hasSub (str "global") code || hasSub (str "shared_resource") code) = false) :
    fix_concurrency_error code context = some code := by
  simp only [Bool.or_eq_false_iff] at h
  simp [fix_concurrency_error, h.1, h.2]

theorem fix_configuration_error_unmatched (code : PyStr) (context : Ctx)
    (h : (hasSub (str "config.get(") code ||
      hasSub (str "os.environ.get(") code) = false) :
    fix_configuration_error code context = some code := by
  simp only [Bool.or_eq_false_iff] at h
  simp [fix_configuration_error, h.1, h.2]

theorem fix_security_error_unmatched (code : PyStr) (context : Ctx)
    (h : (hasSub (str "password") code || hasSub (str "token") code) = false) :
    fix_security_error code context = some code := by
  simp only [Bool.or_eq_false_iff] at h
  simp [fix_security_error, h.1, h.2]

theorem fix_network_error_unmatched (code : PyStr) (context : Ctx)
    (h : (hasSub (str "requests.get(") code || hasSub (str "socket") code) = false) :
    fix_network_error code context = some code := by
  simp only [Bool.or_eq_false_iff] at h
  simp [fix_network_error, h.1, h.2]

theorem fix_filesystem_error_unmatched (code : PyStr) (context : Ctx)
    (h : (hasSub (str "open(") code || hasSub (str "os.path") code) = false) :
    fix_filesystem_error code context = some code := by
  simp only [Bool.or_eq_false_iff] at h
  unfold fix_filesystem_error
  simp only [h.1, h.2, Bool.false_eq_true, if_false]

theorem fix_serialization_error_unmatched (code : PyStr) (context : Ctx)
    (h : (hasSub (str "json.dumps(") code || hasSub (str "pickle.dumps(") code) = false) :
    fix_serialization_error code context = some code := by
  simp only [Bool.or_eq_false_iff] at h
  simp [fix_serialization_error, h.1, h.2]

theorem fix_generic_error_unmatched (code : PyStr) (context : Ctx)
    (h : hasSub (str "try:") code = false) :
    fix_generic_error code context = some code := by
  simp [fix_generic_error, h]

/-- C2: for every category and every text that matches none of the trigger
patterns registered for that category's rule (the generic fallback's pattern
when the category is unregistered), `generate_fix` returns the text
unchanged. -/
theorem generate_fix_unmatched_identity (error_type code : PyStr) (context : Ctx)
    (h : matchesSome error_type code = false) :
    generate_fix error_type code context = some code := by
  unfold generate_fix
  unfold matchesSome at h
  by_cases h1 : error_type = str "DatabaseError"
  · rw [if_pos h1] at h ⊢
    exact fix_database_error_unmatched _ _ h
  rw [if_neg h1] at h ⊢
  by_cases h2 : error_type = str "AuthenticationError"
  · rw [if_pos h2] at h ⊢
    exact fix_auth_error_unmatched _ _ h
  rw [if_neg h2] at h ⊢
  by_cases h3 : error_type = str "ConnectionError"
  · rw [if_pos h3] at h ⊢
    exact fix_connection_error_unmatched _ _ h
  rw [if_neg h3] at h ⊢
  by_cases h4 : error_type = str "TimeoutError"
  · rw [if_pos h4] at h ⊢
    exact fix_timeout_error_unmatched _ _ h
  rw [if_neg h4] at h ⊢
  by_cases h5 : error_type = str "ValidationError"
  · rw [if_pos h5] at h ⊢
    exact fix_validation_error_unmatched _ _ h
  rw [if_neg h5] at h ⊢
  by_cases h6 : error_type = str "ResourceNotFoundError"
  · rw [if_pos h6] at h ⊢
    exact fix_resource_not_found_unmatched _ _ h
  rw [if_neg h6] at h ⊢
  by_cases h7 : error_type = str "PermissionError"
  · rw [if_pos h7] at h ⊢
    exact fix_permission_error_unmatched _ _ h
  rw [if_neg h7] at h ⊢
  by_cases h8 : error_type = str "RateLimitError"
  · rw [if_pos h8] at h ⊢
    exact fix_rate_limit_error_unmatched _ _ h
  rw [if_neg h8] at h ⊢
  by_cases h9 : error_type = str "MemoryError"
  · rw [if_pos h9] at h ⊢
    exact fix_memory_error_unmatched _ _ h
  rw [if_neg h9] at h ⊢
  by_cases h10 : error_type = str "ConcurrencyError"
  · rw [if_pos h10] at h ⊢
    exact fix_concurrency_error_unmatched _ _ h
  rw [if_neg h10] at h ⊢
  by_cases h11 : error_type = str "ConfigurationError"
  · rw [if_pos h11] at h ⊢
    exact fix_configuration_error_unmatched _ _ h
  rw [if_neg h11] at h ⊢
  by_cases h12 : error_type = str "SecurityError"
  · rw [if_pos h12] at h ⊢
    exact fix_security_error_unmatched _ _ h
  rw [if_neg h12] at h ⊢
  by_cases h13 : error_type = str "NetworkError"
  · rw [if_pos h13] at h ⊢
    exact fix_network_error_unmatched _ _ h
  rw [if_neg h13] at h ⊢
  by_cases h14 : error_type = str "FileSystemError"
  · rw [if_pos h14] at h ⊢
    exact fix_filesystem_error_unmatched _ _ h
  rw [if_neg h14] at h ⊢
  by_cases h15 : error_type = str "SerializationError"
  · rw [if_pos h15] at h ⊢
    exact fix_serialization_error_unmatched _ _ h
  rw [if_neg h15] at h ⊢
  exact fix_generic_error_unmatched _ _ h

theorem generate_fix_unmatched_identity_witness :
    matchesSome (str "SecurityError") (str "return 1 + 2") = false ∧
    generate_fix (str "SecurityError") (str "return 1 + 2") []
      = some (str "return 1 + 2") :=
  ⟨by decide, generate_fix_unmatched_identity _ _ _ (by decide)⟩

/-! ## C6: the changeset builder -/

theorem changesForLines_spec (d : IssueData) (fa : FileAnalysis) :
    ∀ (lns : List Int) (cs : List CodeChange),
      changesForLines d fa lns = some cs →
      cs.map (fun c => (c.file_path, c.line_number))
          = lns.map (fun ln => (fa.file_path, ln)) ∧
      ∀ c ∈ cs,
        c.file_path = fa.file_path ∧
        c.original_code = (lookupA fa.context_lines c.line_number).getD [] ∧
        c.author = ((lookupA fa.blame_info c.line_number).bind Blame.author).getD unknownStr ∧
        c.commit_hash = ((lookupA fa.blame_info c.line_number).bind Blame.commit).getD unknownStr ∧
        d.suggested_fixes.head? = some c.description ∧
        generate_fix d.error_type c.original_code fa.context_lines = some c.new_code := by
  intro lns
  induction lns with
  | nil =>
    intro cs h
    simp only [changesForLines] at h
    injection h with h
    subst h
    simp
  | cons ln rest ih =>
    intro cs h
    simp only [changesForLines] at h
    cases hc : changeFor d fa ln with
    | none =>
      rw [hc] at h
      exact Option.noConfusion h
    | some c =>
      simp only [hc] at h
      cases hrest : changesForLines d fa rest with
      | none =>
        rw [hrest] at h
        exact Option.noConfusion h
      | some cs0 =>
        simp only [hrest] at h
        injection h with h
        subst h
        obtain ⟨ih1, ih2⟩ := ih cs0 hrest
        simp only [changeFor] at hc
        cases hg : generate_fix d.error_type
            ((lookupA fa.context_lines ln).getD []) fa.context_lines with
        | none =>
          rw [hg] at hc
          exact Option.noConfusion hc
        | some new_code =>
          simp only [hg] at hc
          cases hd : d.suggested_fixes.head? with
          | none =>
            rw [hd] at hc
            exact Option.noConfusion hc
          | some dsc =>
            simp only [hd] at hc
            injection hc with hc
            subst hc
            constructor
            · simp only [List.map_cons, ih1]
            · intro x hx
              rcases List.mem_cons.mp hx with rfl | hx
              · exact ⟨rfl, rfl, rfl, rfl, rfl, hg⟩
              · have hx2 := ih2 x hx
                rw [hd] at hx2
                exact hx2

theorem changesForFiles_spec (d : IssueData) :
    ∀ (fas : List FileAnalysis) (cs : List CodeChange),
      changesForFiles d fas = some cs →
      cs.map (fun c => (c.file_path, c.line_number))
          = fas.flatMap (fun fa => fa.error_lines.map (fun ln => (fa.file_path, ln))) ∧
      ∀ c ∈ cs, ∃ fa, fa ∈ fas ∧
        c.file_path = fa.file_path ∧
        c.original_code = (lookupA fa.context_lines c.line_number).getD [] ∧
        c.author = ((lookupA fa.blame_info c.line_number).bind Blame.author).getD unknownStr ∧
        c.commit_hash = ((lookupA fa.blame_info c.line_number).bind Blame.commit).getD unknownStr ∧
        d.suggested_fixes.head? = some c.description ∧
        generate_fix d.error_type c.original_code fa.context_lines = some c.new_code := by
  intro fas
  induction fas with
  | nil =>
    intro cs h
    simp only [changesForFiles] at h
    injection h with h
    subst h
    simp
  | cons fa rest ih =>
    intro cs h
    simp only [changesForFiles] at h
    cases h1 : changesForLines d fa fa.error_lines with
    | none =>
      rw [h1] at h
      exact Option.noConfusion h
    | some cs1 =>
      simp only [h1] at h
      cases h2 : changesForFiles d rest with
      | none =>
        rw [h2] at h
        exact Option.noConfusion h
      | some cs2 =>
        simp only [h2] at h
        injection h with h
        subst h
        obtain ⟨hA1, hA2⟩ := changesForLines_spec d fa fa.error_lines cs1 h1
        obtain ⟨hB1, hB2⟩ := ih cs2 h2
        constructor
        · simp only [List.map_append, List.flatMap_cons, hA1, hB1]
        · intro c hc
          rcases List.mem_append.mp hc with hc | hc
          · exact ⟨fa, List.mem_cons_self _ _, hA2 c hc⟩
          · obtain ⟨fa0, hfa0, hp⟩ := hB2 c hc
            exact ⟨fa0, List.mem_cons_of_mem _ hfa0, hp⟩

/-- C6 (counterexample): the builder does not produce a changeset for every
report.  For a `NetworkError` report whose single flagged line has the
context text `socket`, the dispatched rule raises (the `{e}` f-string
`NameError`, `none` in the embedding), so `suggest_code_changes` produces
nothing at all even though the report's code locations are nonempty —
refuting the claimed unconditional production and non-emptiness. -/
theorem suggest_code_changes_can_fail :
    suggest_code_changes
      { error_id := str "E3", error_type := str "NetworkError",
        code_analysis := [{ file_path := str "a.py", error_lines := [1],
                            context_lines := [(1, str "socket")],
                            blame_info := [] }],
        suggested_fixes := [str "fix it"] }
      = none ∧
    codeLocations
      { error_id := str "E3", error_type := str "NetworkError",
        code_analysis := [{ file_path := str "a.py", error_lines := [1],
                            context_lines := [(1, str "socket")],
                            blame_info := [] }],
        suggested_fixes := [str "fix it"] }
      ≠ [] := by
  constructor
  · decide
  · decide

/-- C6 (amended): whenever `suggest_code_changes` returns a changeset (no
rule invocation raises along the way), it contains
exactly one change per `(file_path, line_number)` entry of the report's code
locations, in input order; each change's original text is the context entry
of its line (empty when absent), its author and commit hash default to
`Unknown` when blame is absent, its description is the first suggested fix,
and its replacement is `generate_fix` applied to the original text with the
report's single error category; consequently the changeset is nonempty
whenever the locations are. -/
theorem suggest_code_changes_spec (d : IssueData) (cs : List CodeChange)
    (h : suggest_code_changes d = some cs) :
    cs.map (fun c => (c.file_path, c.line_number)) = codeLocations d ∧
    (∀ c ∈ cs, ∃ fa, fa ∈ d.code_analysis ∧
      c.file_path = fa.file_path ∧
      c.original_code = (lookupA fa.context_lines c.line_number).getD [] ∧
      c.author = ((lookupA fa.blame_info c.line_number).bind Blame.author).getD unknownStr ∧
      c.commit_hash = ((lookupA fa.blame_info c.line_number).bind Blame.commit).getD unknownStr ∧
      d.suggested_fixes.head? = some c.description ∧
      generate_fix d.error_type c.original_code fa.context_lines = some c.new_code) ∧
    (codeLocations d ≠ [] → cs ≠ []) := by
  obtain ⟨h1, h2⟩ := changesForFiles_spec d d.code_analysis cs h
  refine ⟨h1, h2, ?_⟩
  intro hne hcs
  subst hcs
  refine hne ?_
  unfold codeLocations
  rw [← h1]
  simp

/-- A two-line report used to instantiate the changeset-builder theorem: one
line with context and blame, one line with neither. -/
def sampleIssue : IssueData :=
  { error_id := str "E2", error_type := str "ValidationError",
    code_analysis :=
      [{ file_path := str "a.py", error_lines := [1, 2],
         context_lines := [(1, str "x = 1")],
         blame_info := [(1, { author := some (str "alice"),
                              commit := some (str "c1") })] }],
    suggested_fixes := [str "fix it"] }

/-- The changeset the builder produces for `sampleIssue`. -/
def sampleChanges : List CodeChange :=
  [{ file_path := str "a.py", original_code := str "x = 1",
     new_code := str "x = 1", line_number := 1, description := str "fix it",
     author := str "alice", commit_hash := str "c1" },
   { file_path := str "a.py", original_code := [], new_code := [],
     line_number := 2, description := str "fix it",
     author := unknownStr, commit_hash := unknownStr }]

theorem suggest_code_changes_spec_witness :
    suggest_code_changes sampleIssue = some sampleChanges ∧
    sampleChanges.map (fun c => (c.file_path, c.line_number))
      = codeLocations sampleIssue ∧
    (codeLocations sampleIssue ≠ [] → sampleChanges ≠ []) := by
  have h : suggest_code_changes sampleIssue = some sampleChanges := by decide
  have hs := suggest_code_changes_spec sampleIssue sampleChanges h
  exact ⟨h, hs.1, hs.2.2⟩

/-! ## C5: the numeric timeout rule doubles every occurrence -/

/-- Does the regular expression `timeout=(\d+)` match anywhere in the text,
i.e. does the text contain an occurrence `timeout=N` with `N` a nonempty
decimal digit run? -/
def hasTimeoutNum : PyStr → Bool
  | [] => false
  | c :: s => startsTimeoutNum (c :: s) || hasTimeoutNum s

theorem hasTimeoutNum_hasSub : ∀ s, hasTimeoutNum s = true → hasSub tPat s = true := by
  intro s
  induction s with
  | nil => intro h; simp [hasTimeoutNum] at h
  | cons c t ih =>
    intro h
    simp only [hasTimeoutNum, Bool.or_eq_true] at h
    simp only [hasSub, Bool.or_eq_true]
    rcases h with h | h
    · left
      simp only [startsTimeoutNum, Bool.and_eq_true] at h
      exact h.1
    · right
      exact ih h

theorem startsWithL_decomp : ∀ (p l : PyStr), startsWithL p l = true →
    l = p ++ l.drop p.length := by
  intro p
  induction p with
  | nil => intro l h; simp
  | cons a p ih =>
    intro l h
    cases l with
    | nil => simp [startsWithL] at h
    | cons b t =>
      simp only [startsWithL, Bool.and_eq_true, decide_eq_true_eq] at h
      obtain ⟨h1, h2⟩ := h
      subst h1
      simp only [List.length_cons, List.drop_succ_cons, List.cons_append,
        List.cons.injEq, true_and]
      exact ih t h2

theorem head?_dropWhile_false (p : Char → Bool) (l : PyStr) (x : Char)
    (h : (l.dropWhile p).head? = some x) : p x = false := by
  have hw := List.head?_dropWhile_not p l
  rw [h] at hw
  exact hw

theorem takeWhile_ne_nil_of_head (p : Char → Bool) (l : PyStr) (x : Char)
    (h1 : l.head? = some x) (h2 : p x = true) : l.takeWhile p ≠ [] := by
  cases l with
  | nil => simp at h1
  | cons a t =>
    simp only [List.head?_cons, Option.some.injEq] at h1
    subst h1
    simp [List.takeWhile_cons_of_pos h2]

/-- The rewriting relation stated by the claim for the numeric timeout rule:
the output is the input with every occurrence of `timeout=` followed by a
maximal nonempty digit run `N` rewritten to `timeout=` followed by the
decimal digits of twice the parsed value of `N`, and every character outside
such occurrences copied unchanged, in order. -/
inductive TimeoutRewrite : PyStr → PyStr → Prop
  | nil : TimeoutRewrite [] []
  | occurrence (ds rest out : PyStr) :
      ds ≠ [] → (∀ c ∈ ds, c.isDigit = true) →
      (∀ c, rest.head? = some c → c.isDigit = false) →
      TimeoutRewrite rest out →
      TimeoutRewrite (tPat ++ ds ++ rest)
        (tPat ++ Nat.toDigits 10 (2 * digitsVal ds) ++ out)
  | keep (c : Char) (s out : PyStr) :
      startsTimeoutNum (c :: s) = false →
      TimeoutRewrite s out →
      TimeoutRewrite (c :: s) (c :: out)

theorem timeoutRewrite_subTimeout (s : PyStr) :
    TimeoutRewrite s (subTimeout s) := by
  have H : ∀ n, ∀ s : PyStr, s.length ≤ n → TimeoutRewrite s (subTimeout s) := by
    intro n
    induction n with
    | zero =>
      intro s hs
      have hnil : s = [] := by
        cases s with
        | nil => rfl
        | cons c t => simp at hs
      subst hnil
      rw [subTimeout]
      exact .nil
    | succ n ih =>
      intro s hs
      cases s with
      | nil =>
        rw [subTimeout]
        exact .nil
      | cons c t =>
        by_cases hcond : startsTimeoutNum (c :: t) = true
        · have hstart : startsWithL tPat (c :: t) = true := by
            have h0 := hcond
            simp only [startsTimeoutNum, Bool.and_eq_true] at h0
            exact h0.1
          obtain ⟨d, hh, hd⟩ :
              ∃ d, ((c :: t).drop tPat.length).head? = some d ∧ d.isDigit = true := by
            have h0 := hcond
            simp only [startsTimeoutNum, Bool.and_eq_true] at h0
            have h2 := h0.2
            cases hh : ((c :: t).drop tPat.length).head? with
            | none => rw [hh] at h2; cases h2
            | some d => rw [hh] at h2; exact ⟨d, rfl, h2⟩
          have hdecomp : c :: t = tPat ++ (c :: t).drop tPat.length :=
            startsWithL_decomp tPat (c :: t) hstart
          have htake :
              ((c :: t).drop tPat.length).takeWhile Char.isDigit ++
                ((c :: t).drop tPat.length).dropWhile Char.isDigit
              = (c :: t).drop tPat.length :=
            List.takeWhile_append_dropWhile Char.isDigit _
          have hne : ((c :: t).drop tPat.length).takeWhile Char.isDigit ≠ [] :=
            takeWhile_ne_nil_of_head Char.isDigit _ d hh hd
          have hall : ∀ x ∈ ((c :: t).drop tPat.length).takeWhile Char.isDigit,
              x.isDigit = true :=
            fun x hx => List.mem_takeWhile_imp hx
          have hresthead : ∀ x,
              (((c :: t).drop tPat.length).dropWhile Char.isDigit).head? = some x →
              x.isDigit = false :=
            fun x hx => head?_dropWhile_false Char.isDigit _ x hx
          have hlen : (((c :: t).drop tPat.length).dropWhile Char.isDigit).length ≤ n := by
            have h1 := dropWhile_len_le Char.isDigit ((c :: t).drop tPat.length)
            have h3 : 0 < tPat.length := by decide
            simp only [List.length_drop, List.length_cons] at *
            omega
          have hrec := ih _ hlen
          have hocc := TimeoutRewrite.occurrence
            (((c :: t).drop tPat.length).takeWhile Char.isDigit)
            (((c :: t).drop tPat.length).dropWhile Char.isDigit)
            _ hne hall hresthead hrec
          have hsub : subTimeout (c :: t) =
              tPat ++
                Nat.toDigits 10
                  (2 * digitsVal (((c :: t).drop tPat.length).takeWhile Char.isDigit)) ++
                subTimeout (((c :: t).drop tPat.length).dropWhile Char.isDigit) := by
            rw [subTimeout]
            rw [if_pos hcond]
          rw [hsub]
          conv_lhs => rw [hdecomp, ← htake]
          simpa [List.append_assoc] using hocc
        · have hcond' : startsTimeoutNum (c :: t) = false := by
            simpa using hcond
          have hsub : subTimeout (c :: t) = c :: subTimeout t := by
            rw [subTimeout]
            rw [if_neg (by simp [hcond'])]
          rw [hsub]
          exact .keep c t _ hcond' (ih t (by simp only [List.length_cons] at hs; omega))
  exact H s.length s (Nat.le_refl _)

/-- C5: for the category dispatching to the numeric timeout rule
(`TimeoutError`), on any input containing an occurrence `timeout=N` (`N` a
nonempty decimal digit run), `generate_fix` succeeds and returns the input
with every such occurrence rewritten to `timeout=` followed by the decimal
digits of `2 * N` — the exact doubling of the parsed integer — and all other
characters unchanged (the relation `TimeoutRewrite`). -/
theorem generate_fix_timeout_doubles (code : PyStr) (context : Ctx)
    (h : hasTimeoutNum code = true) :
    generate_fix (str "TimeoutError") code context = some (subTimeout code) ∧
    TimeoutRewrite code (subTimeout code) := by
  constructor
  · have hs : hasSub tPat code = true := hasTimeoutNum_hasSub code h
    unfold generate_fix
    rw [if_neg (by decide), if_neg (by decide), if_neg (by decide), if_pos rfl]
    simp [fix_timeout_error, hs]
  · exact timeoutRewrite_subTimeout code

theorem generate_fix_timeout_doubles_witness :
    generate_fix (str "TimeoutError") (str "call(timeout=21, x)") []
      = some (subTimeout (str "call(timeout=21, x)")) ∧
    TimeoutRewrite (str "call(timeout=21, x)")
      (subTimeout (str "call(timeout=21, x)")) ∧
    subTimeout (str "call(timeout=21, x)") = str "call(timeout=42, x)" := by
  have h := generate_fix_timeout_doubles (str "call(timeout=21, x)") [] (by decide)
  refine ⟨h.1, h.2, ?_⟩
  simp [subTimeout, startsTimeoutNum, startsWithL, tPat, str, digitsVal,
    Nat.toDigits, Nat.toDigitsCore, Nat.digitChar]

/-! ## C4: descending-order application with a multi-line expansion -/

theorem splitAfterNL_ne_nil : ∀ (s : List Char), s ≠ [] → splitAfterNL s ≠ [] := by
  intro s hs
  cases s with
  | nil => exact absurd rfl hs
  | cons c rest =>
    simp only [splitAfterNL]
    split
    · simp
    · cases h : splitAfterNL rest with
      | nil => simp
      | cons l ls => simp

theorem splitAfterNL_append (m b : List Char) :
    splitAfterNL ((m ++ [ '\n' ]) ++ b)
      = splitAfterNL (m ++ [ '\n' ]) ++ splitAfterNL b := by
  induction m with
  | nil => simp [splitAfterNL]
  | cons c m' ih =>
    by_cases hc : c = '\n'
    · subst hc
      simp only [List.cons_append, splitAfterNL, if_pos rfl, List.append_eq]
      rw [ih]
      rfl
    · have hnil : m' ++ [ '\n' ] ≠ [] := by simp
      have hne := splitAfterNL_ne_nil _ hnil
      simp only [List.cons_append, splitAfterNL, if_neg hc, List.append_eq]
      rw [ih]
      cases h : splitAfterNL (m' ++ [ '\n' ]) with
      | nil => exact absurd h hne
      | cons l ls => rfl

theorem splitAfterNL_line (m : List Char) (hm : '\n' ∉ m) :
    splitAfterNL (m ++ [ '\n' ]) = [m ++ [ '\n' ]] := by
  induction m with
  | nil => rfl
  | cons c m' ih =>
    have hc : ¬ c = '\n' := fun h => hm (h ▸ List.mem_cons_self _ _)
    have hm' : '\n' ∉ m' := fun h => hm (List.mem_cons_of_mem _ h)
    simp only [List.cons_append, splitAfterNL, if_neg hc, List.append_eq]
    rw [ih hm']

theorem splitAfterNL_flatten (L : List PyStr)
    (hWF : ∀ l ∈ L, ∃ m, l = m ++ [ '\n' ] ∧ '\n' ∉ m) :
    splitAfterNL L.flatten = L := by
  induction L with
  | nil => rfl
  | cons l L' ih =>
    obtain ⟨m, rfl, hm⟩ := hWF l (List.mem_cons_self _ _)
    rw [List.flatten_cons, splitAfterNL_append m L'.flatten, splitAfterNL_line m hm,
      ih (fun x hx => hWF x (List.mem_cons_of_mem _ hx))]
    rfl

theorem splitAfterNL_flatten_append (A : List PyStr) (b : List Char)
    (hWF : ∀ l ∈ A, ∃ m, l = m ++ [ '\n' ] ∧ '\n' ∉ m) :
    splitAfterNL (A.flatten ++ b) = A ++ splitAfterNL b := by
  induction A with
  | nil => simp
  | cons l A' ih =>
    obtain ⟨m, rfl, hm⟩ := hWF _ (List.mem_cons_self _ _)
    rw [List.flatten_cons, List.append_assoc, splitAfterNL_append m _,
      splitAfterNL_line m hm, ih (fun x hx => hWF x (List.mem_cons_of_mem _ hx))]
    rfl

theorem splitAfterNL_wf (s : List Char) :
    ∀ l ∈ splitAfterNL (s ++ [ '\n' ]), ∃ m, l = m ++ [ '\n' ] ∧ '\n' ∉ m := by
  induction s with
  | nil =>
    intro l hl
    simp only [List.nil_append] at hl
    have : splitAfterNL [ '\n' ] = [[ '\n' ]] := rfl
    rw [this] at hl
    simp only [List.mem_singleton] at hl
    exact ⟨[], by simp [hl], by simp⟩
  | cons c s' ih =>
    intro l hl
    by_cases hc : c = '\n'
    · subst hc
      simp only [List.cons_append, splitAfterNL, if_pos rfl, List.append_eq] at hl
      rcases List.mem_cons.mp hl with rfl | hl
      · exact ⟨[], rfl, by simp⟩
      · exact ih l hl
    · have hnil : s' ++ [ '\n' ] ≠ [] := by simp
      have hne := splitAfterNL_ne_nil _ hnil
      simp only [List.cons_append, splitAfterNL, if_neg hc, List.append_eq] at hl
      cases h : splitAfterNL (s' ++ [ '\n' ]) with
      | nil => exact absurd h hne
      | cons l0 ls =>
        rw [h] at hl
        rcases List.mem_cons.mp hl with rfl | hl
        · obtain ⟨m0, hm0, hm0n⟩ := ih l0 (h ▸ List.mem_cons_self _ _)
          refine ⟨c :: m0, by rw [hm0]; rfl, ?_⟩
          intro hmem
          rcases List.mem_cons.mp hmem with heq | hmem
          · exact hc heq.symm
          · exact hm0n hmem
        · exact ih l (h ▸ List.mem_cons_of_mem _ hl)

theorem take_set_self (a : PyStr) (n : Nat) (l : List PyStr) :
    (l.set n a).take n = l.take n := by
  apply List.ext_getElem?
  intro i
  rw [List.getElem?_take, List.getElem?_take]
  split
  · exact List.getElem?_set_ne (by omega)
  · rfl

/-- C4: two flagged lines of one newline-terminated file, the numerically
larger one (`n2`) replaced by a multi-line block, applied in descending
line-number order (the later change first, each application re-reading the
written file).  The earlier (numerically smaller) line `n1` then receives
exactly the replacement text of its own change, and all lines before it are
untouched — the expansion at the later line does not corrupt it. -/
theorem descending_multiline_preserves_earlier (L : List PyStr) (n1 n2 : Nat)
    (new1 new2 : PyStr)
    (hWF : ∀ l ∈ L, ∃ m, l = m ++ [ '\n' ] ∧ '\n' ∉ m)
    (h1 : 1 ≤ n1) (h12 : n1 < n2) (h2 : n2 ≤ L.length)
    (hnew1 : '\n' ∉ new1) (hnew2 : '\n' ∈ new2) :
    (splitAfterNL (applyToContent (n1 : Int) new1
        (applyToContent (n2 : Int) new2 L.flatten))).take (n1 - 1)
      = L.take (n1 - 1) ∧
    (splitAfterNL (applyToContent (n1 : Int) new1
        (applyToContent (n2 : Int) new2 L.flatten)))[n1 - 1]?
      = some (new1 ++ [ '\n' ]) := by
  have hL : splitAfterNL L.flatten = L := splitAfterNL_flatten L hWF
  have hWFtake : ∀ l ∈ L.take (n2 - 1), ∃ m, l = m ++ [ '\n' ] ∧ '\n' ∉ m :=
    fun l hl => hWF l (List.mem_of_mem_take hl)
  have hWFdrop : ∀ l ∈ L.drop n2, ∃ m, l = m ++ [ '\n' ] ∧ '\n' ∉ m :=
    fun l hl => hWF l (List.mem_of_mem_drop hl)
  -- the first (later-line) application
  have hc1 : applyToContent (n2 : Int) new2 L.flatten
      = (L.take (n2 - 1) ++ (new2 ++ [ '\n' ]) :: L.drop n2).flatten := by
    unfold applyToContent replaceLine
    rw [hL]
    rw [if_pos (by constructor <;> [omega; (push_cast; omega)])]
    congr 1
    rw [List.set_eq_take_append_cons_drop]
    rw [if_pos (by omega)]
    have hk : ((n2 : Int) - 1).toNat = n2 - 1 := by omega
    rw [hk]
    have hk2 : n2 - 1 + 1 = n2 := by omega
    rw [hk2]
  have hsplit1 : splitAfterNL (applyToContent (n2 : Int) new2 L.flatten)
      = L.take (n2 - 1) ++ splitAfterNL (new2 ++ [ '\n' ]) ++ L.drop n2 := by
    rw [hc1, List.flatten_append, List.flatten_cons]
    rw [splitAfterNL_flatten_append _ _ hWFtake]
    rw [splitAfterNL_append new2 _]
    rw [splitAfterNL_flatten _ hWFdrop]
    rw [List.append_assoc]
  have hlentake : (L.take (n2 - 1)).length = n2 - 1 := by
    rw [List.length_take]
    omega
  -- the second (earlier-line) application
  have hc2 : applyToContent (n1 : Int) new1 (applyToContent (n2 : Int) new2 L.flatten)
      = (((L.take (n2 - 1)).set (n1 - 1) (new1 ++ [ '\n' ])
          ++ splitAfterNL (new2 ++ [ '\n' ])) ++ L.drop n2).flatten := by
    conv_lhs => rw [applyToContent]
    rw [hsplit1]
    unfold replaceLine
    have hlen : ((L.take (n2 - 1) ++ splitAfterNL (new2 ++ [ '\n' ]) ++ L.drop n2).length : Int)
        = ((n2 - 1 : Nat) : Int) + (splitAfterNL (new2 ++ [ '\n' ])).length + (L.drop n2).length := by
      simp only [List.length_append, hlentake]
      push_cast
      ring
    rw [if_pos (by constructor <;> [omega; (rw [hlen]; push_cast; omega)])]
    congr 1
    have hk : ((n1 : Int) - 1).toNat = n1 - 1 := by omega
    rw [hk]
    rw [List.set_append_left _ _ (by rw [List.length_append, hlentake]; omega)]
    rw [List.set_append_left _ _ (by rw [hlentake]; omega)]
  have hWFfinal : ∀ l ∈ (((L.take (n2 - 1)).set (n1 - 1) (new1 ++ [ '\n' ])
        ++ splitAfterNL (new2 ++ [ '\n' ])) ++ L.drop n2),
      ∃ m, l = m ++ [ '\n' ] ∧ '\n' ∉ m := by
    intro l hl
    rcases List.mem_append.mp hl with hl | hl
    · rcases List.mem_append.mp hl with hl | hl
      · rcases List.mem_or_eq_of_mem_set hl with hl | rfl
        · exact hWFtake l hl
        · exact ⟨new1, rfl, hnew1⟩
      · exact splitAfterNL_wf new2 l hl
    · exact hWFdrop l hl
  have hfinal : splitAfterNL (applyToContent (n1 : Int) new1
        (applyToContent (n2 : Int) new2 L.flatten))
      = ((L.take (n2 - 1)).set (n1 - 1) (new1 ++ [ '\n' ])
          ++ splitAfterNL (new2 ++ [ '\n' ])) ++ L.drop n2 := by
    rw [hc2]
    exact splitAfterNL_flatten _ hWFfinal
  rw [hfinal]
  have hlenset : ((L.take (n2 - 1)).set (n1 - 1) (new1 ++ [ '\n' ])).length = n2 - 1 := by
    rw [List.length_set, hlentake]
  constructor
  · rw [List.take_append_of_le_length (by rw [List.length_append, hlenset]; omega)]
    rw [List.take_append_of_le_length (by rw [hlenset]; omega)]
    rw [take_set_self]
    rw [List.take_take]
    congr 1
    omega
  · rw [List.getElem?_append_left (by rw [List.length_append, hlenset]; omega)]
    rw [List.getElem?_append_left (by rw [hlenset]; omega)]
    exact List.getElem?_set_self (by rw [hlentake]; omega)

theorem descending_multiline_preserves_earlier_witness :
    (splitAfterNL (applyToContent (2 : Int) (str "A")
        (applyToContent (3 : Int) (str "X\nY") [str "a\n", str "b\n", str "c\n"].flatten))).take 1
      = [str "a\n", str "b\n", str "c\n"].take 1 ∧
    (splitAfterNL (applyToContent (2 : Int) (str "A")
        (applyToContent (3 : Int) (str "X\nY") [str "a\n", str "b\n", str "c\n"].flatten)))[1]?
      = some (str "A" ++ [ '\n' ]) := by
  have h := descending_multiline_preserves_earlier
    [str "a\n", str "b\n", str "c\n"] 2 3 (str "A") (str "X\nY")
    (by
      intro l hl
      simp only [List.mem_cons, List.not_mem_nil, or_false] at hl
      rcases hl with rfl | rfl | rfl
      · exact ⟨str "a", by decide, by decide⟩
      · exact ⟨str "b", by decide, by decide⟩
      · exact ⟨str "c", by decide, by decide⟩)
    (by decide) (by decide) (by decide) (by decide) (by decide)
  exact h

end NoMoreOnCall
